import Mathlib

/-!
Shallow embedding of `src/iib/workers/tasks/build.py` (the IIB build
orchestration pipeline) together with proofs about the claims of the
natural-language specification.

External effects (skopeo inspections, registry resolution, image labels,
worker configuration, the legacy collaborator) are abstracted into an
environment `Env` of pure functions; the pipeline functions are translated
from the Python source and additionally emit a trace of `Event`s recording
every side-effecting step (host cleanup, state updates, opm generation,
per-arch builds and pushes, manifest push, legacy export), so that
ordering and fail-fast properties can be stated and proved.
-/

namespace IIB

/-! ## Decimal rendering of natural numbers

Python renders `request_id` (an `int`) in decimal inside f-strings such as
`f'iib-build:{request_id}-{arch}'`.  We model this with an explicit,
fuel-based decimal printer so that proofs can compute with it. -/

/-- Decimal digit character for a digit value below ten (the catch-all
branch is never reached in the uses below, where the argument is always
a value below ten). -/
def digitChar : Nat → Char
  | 0 => '0'
  | 1 => '1'
  | 2 => '2'
  | 3 => '3'
  | 4 => '4'
  | 5 => '5'
  | 6 => '6'
  | 7 => '7'
  | 8 => '8'
  | 9 => '9'
  | _ => '*'

/-- Fuel-based most-significant-first decimal digit list of a natural
number.  With fuel at least `n + 1` this is the standard decimal
representation of `n`. -/
def natDigitsAux : Nat → Nat → List Char
  | 0, _ => []
  | fuel + 1, n =>
    if n < 10 then [digitChar n]
    else natDigitsAux fuel (n / 10) ++ [digitChar (n % 10)]

/-- Decimal digit list of a natural number, most significant digit first;
this is how Python's `str` renders a non-negative `int`. -/
def natDigits (n : Nat) : List Char := natDigitsAux (n + 1) n

/-- Decimal string rendering of a natural number, as Python's `str(int)`. -/
def natRepr (n : Nat) : String := String.mk (natDigits n)

/-- Reads a digit list back into a number; used to invert `natDigits`. -/
def natOfDigits (l : List Char) : Nat :=
  l.foldl (fun acc c => acc * 10 + (c.toNat - 48)) 0

/-- Decidable equality for `Except`, so that concrete pipeline results can
be evaluated by `decide`. -/
instance {ε α : Type} [DecidableEq ε] [DecidableEq α] :
    DecidableEq (Except ε α) := fun x y =>
  match x, y with
  | .ok a, .ok b => decidable_of_iff (a = b) (by simp)
  | .error a, .error b => decidable_of_iff (a = b) (by simp)
  | .ok _, .error _ => isFalse (by simp)
  | .error _, .ok _ => isFalse (by simp)

/-! ## Lexicographic string order and sorted extraction of a Finset

Python's `sorted` on a set of architecture names yields the unique list
that is sorted lexicographically by code point.  We define that order
explicitly (rather than using the library's string order, whose comparison
function is not reducible by the kernel) so that concrete pipeline traces
can be evaluated by `decide`. -/

/-- Lexicographic comparison of character lists by code point, the order
Python's `sorted` uses on strings. -/
def charListLe : List Char → List Char → Bool
  | [], _ => true
  | _ :: _, [] => false
  | a :: l1, b :: l2 =>
    if a.toNat < b.toNat then true
    else if b.toNat < a.toNat then false
    else charListLe l1 l2

/-- Lexicographic order on strings by code point. -/
def stringLE (a b : String) : Prop := charListLe a.data b.data = true

instance : DecidableRel stringLE := fun a b =>
  inferInstanceAs (Decidable (charListLe a.data b.data = true))

instance : IsTotal String stringLE := ⟨by
  have key : ∀ l1 l2 : List Char,
      charListLe l1 l2 = true ∨ charListLe l2 l1 = true := by
    intro l1
    induction l1 with
    | nil => intro l2; exact Or.inl rfl
    | cons a t1 ih =>
      intro l2
      cases l2 with
      | nil => exact Or.inr rfl
      | cons b t2 =>
        simp only [charListLe]
        by_cases hab : a.toNat < b.toNat
        · refine Or.inl ?_
          rw [if_pos hab]
        · by_cases hba : b.toNat < a.toNat
          · refine Or.inr ?_
            rw [if_pos hba]
          · rcases ih t2 with h | h
            · refine Or.inl ?_
              rw [if_neg hab, if_neg hba]
              exact h
            · refine Or.inr ?_
              rw [if_neg hba, if_neg hab]
              exact h
  intro a b
  exact key a.data b.data⟩

instance : IsTrans String stringLE := ⟨by
  have key : ∀ l1 l2 l3 : List Char, charListLe l1 l2 = true →
      charListLe l2 l3 = true → charListLe l1 l3 = true := by
    intro l1
    induction l1 with
    | nil => intro l2 l3 _ _; rfl
    | cons a t1 ih =>
      intro l2 l3 h12 h23
      cases l2 with
      | nil => simp [charListLe] at h12
      | cons b t2 =>
        cases l3 with
        | nil => simp [charListLe] at h23
        | cons c t3 =>
          simp only [charListLe] at h12 h23 ⊢
          by_cases hab : a.toNat < b.toNat
          · by_cases hbc : b.toNat < c.toNat
            · rw [if_pos (by omega : a.toNat < c.toNat)]
            · by_cases hcb : c.toNat < b.toNat
              · rw [if_neg hbc, if_pos hcb] at h23; simp at h23
              · rw [if_pos (by omega : a.toNat < c.toNat)]
          · by_cases hba : b.toNat < a.toNat
            · rw [if_neg hab, if_pos hba] at h12; simp at h12
            · by_cases hbc : b.toNat < c.toNat
              · rw [if_pos (by omega : a.toNat < c.toNat)]
              · by_cases hcb : c.toNat < b.toNat
                · rw [if_neg hbc, if_pos hcb] at h23; simp at h23
                · rw [if_neg hab, if_neg hba] at h12
                  rw [if_neg hbc, if_neg hcb] at h23
                  rw [if_neg (by omega : ¬ a.toNat < c.toNat),
                    if_neg (by omega : ¬ c.toNat < a.toNat)]
                  exact ih t2 t3 h12 h23
  intro a b c hab hbc
  exact key a.data b.data c.data hab hbc⟩

instance : IsAntisymm String stringLE := ⟨by
  have key : ∀ l1 l2 : List Char, charListLe l1 l2 = true →
      charListLe l2 l1 = true → l1 = l2 := by
    intro l1
    induction l1 with
    | nil =>
      intro l2 _ h21
      cases l2 with
      | nil => rfl
      | cons b t2 => simp [charListLe] at h21
    | cons a t1 ih =>
      intro l2 h12 h21
      cases l2 with
      | nil => simp [charListLe] at h12
      | cons b t2 =>
        simp only [charListLe] at h12 h21
        by_cases hab : a.toNat < b.toNat
        · rw [if_neg (by omega : ¬ b.toNat < a.toNat), if_pos hab] at h21
          simp at h21
        · by_cases hba : b.toNat < a.toNat
          · rw [if_neg hab, if_pos hba] at h12; simp at h12
          · rw [if_neg hab, if_neg hba] at h12
            rw [if_neg hba, if_neg hab] at h21
            have hn : a.toNat = b.toNat := by omega
            have hc : a = b := Char.eq_of_val_eq (UInt32.toNat.inj hn)
            rw [hc, ih t2 h12 h21]
  intro a b hab hba
  exact String.ext (key a.data b.data hab hba)⟩

/-- The sorted list of the elements of a finite set of strings, in
ascending lexicographic order: this models Python's `sorted(arches)` on a
set, computably.  The underlying insertion sort is lifted to the multiset
quotient via uniqueness of the sorted arrangement of a permutation
class. -/
def sortArches (s : Finset String) : List String :=
  Quot.liftOn s.val (fun l => List.insertionSort stringLE l) fun l1 l2 h => by
    have hp : List.Perm l1 l2 := h
    exact List.eq_of_perm_of_sorted
      (((List.perm_insertionSort _ l1).trans hp).trans
        (List.perm_insertionSort _ l2).symm)
      (List.sorted_insertionSort _ l1) (List.sorted_insertionSort _ l2)

/-! ## Data model for skopeo inspection results -/

/-- One member manifest of a v2 manifest list, keeping only the field the
source reads: `manifest['platform']['architecture']`. -/
structure SkopeoManifestEntry where
  platform_architecture : String
  deriving DecidableEq

/-- Result of `skopeo inspect --raw`: the `mediaType` field and, for
manifest lists, the member manifests. -/
structure SkopeoRaw where
  mediaType : String
  manifests : List SkopeoManifestEntry
  deriving DecidableEq

/-- Media type of a v2 manifest list, compared against in
`_get_image_arches`. -/
def manifestListMediaType : String :=
  "application/vnd.docker.distribution.manifest.list.v2+json"

/-- Media type of a single v2 manifest, compared against in
`_get_image_arches`. -/
def v2ManifestMediaType : String :=
  "application/vnd.docker.distribution.manifest.v2+json"

/-! ## Environment

All remote and configured behaviour the pipeline consults.  Resolution of
a mutable tag can change while a build is running, which is what the
consistency verifier guards against; we model the registry state at
preparation time (`resolve1`) and at verification time (`resolve2`)
separately. -/

/-- Abstraction of the external world: registry resolution at preparation
time (`resolve1`) and at post-build verification time (`resolve2`), skopeo
inspection results, image labels, and the worker configuration and legacy
collaborator consulted by `handle_add_request`. -/
structure Env where
  /-- pull spec resolution (`_get_resolved_image`) at preparation time -/
  resolve1 : String → String
  /-- pull spec resolution (`_get_resolved_image`) at verification time -/
  resolve2 : String → String
  /-- result of `skopeo inspect --raw` for a pull spec -/
  inspectRaw : String → SkopeoRaw
  /-- the `Architecture` field of a plain `skopeo inspect` for a pull spec -/
  inspectArchitecture : String → String
  /-- label lookup on an image: `get_image_labels(pull_spec).get(label)` -/
  imageLabels : String → String → Option String
  /-- the worker configuration's `iib_required_labels` mapping, in its
  (insertion-ordered Python dict) iteration order -/
  iib_required_labels : List (String × String)
  /-- `get_legacy_support_packages(bundles)` from the legacy collaborator -/
  legacy_support_packages : List String → List String
  /-- `validate_legacy_params_and_config(packages, bundles, cnr_token,
  organization)` from the legacy collaborator -/
  validate_legacy : List String → List String → Option String → Option String →
    Except String Unit
  /-- `get_rebuilt_index_image`: the configured push template applied to a
  request id -/
  rebuilt_image : Nat → String

/-! ## Events

Every side-effecting step of the pipeline is recorded as an event, in the
order the source performs it. -/

/-- Side-effecting steps of the pipeline, in source order: `_cleanup`,
`set_request_state`, `update_request` (recorded with the `state` field of
its payload), `_opm_index_add` / `_opm_index_rm` (with the arguments the
source passes), `_build_image`, `_push_image`, the manifest-list push of
`_create_and_push_manifest_list`, and `opm_index_export`. -/
inductive Event where
  | cleanup : Event
  | setState (request_id : Nat) (state : String) (reason : String) : Event
  | updateRequest (request_id : Nat) (state : String) : Event
  | opmIndexAdd (bundles : List String) (binary_image : String)
      (from_index : Option String) : Event
  | opmIndexRm (operators : List String) (binary_image : String)
      (from_index : String) : Event
  | buildImage (request_id : Nat) (arch : String) : Event
  | pushImage (request_id : Nat) (arch : String) : Event
  | pushManifestList (request_id : Nat) : Event
  | legacyExport : Event
  deriving DecidableEq

/-- Whether an event is an index-content generation step (`opm index add`
or `opm index rm`). -/
def Event.isGenerate : Event → Bool
  | .opmIndexAdd _ _ _ => true
  | .opmIndexRm _ _ _ => true
  | _ => false

/-- Whether an event is a per-arch image build. -/
def Event.isBuild : Event → Bool
  | .buildImage _ _ => true
  | _ => false

/-- Whether an event is a per-arch image push. -/
def Event.isPush : Event → Bool
  | .pushImage _ _ => true
  | _ => false

/-- The architecture of a per-arch build event, if any. -/
def Event.buildArch : Event → Option String
  | .buildImage _ arch => some arch
  | _ => none

/-- The architecture of a per-arch push event, if any. -/
def Event.pushArch : Event → Option String
  | .pushImage _ arch => some arch
  | _ => none

/-- Whether an event persists a `complete` request state
(`_finish_request_post_build`). -/
def Event.isComplete : Event → Bool
  | .updateRequest _ state => state = "complete"
  | _ => false

/-- Whether an event is the manifest-list push of
`_create_and_push_manifest_list`. -/
def Event.isManifestPush : Event → Bool
  | .pushManifestList _ => true
  | _ => false

/-! ## Pure helpers translated from the source -/

/-- Translation of `_get_local_pull_spec`:
`f'iib-build:{request_id}-{arch}'`. -/
def get_local_pull_spec (request_id : Nat) (arch : String) : String :=
  "iib-build:" ++ natRepr request_id ++ "-" ++ arch

/-- Translation of `get_rebuilt_index_image`: the configured
`iib_image_push_template` applied to the registry and request id, held
abstractly in the environment. -/
def get_rebuilt_index_image (env : Env) (request_id : Nat) : String :=
  env.rebuilt_image request_id

/-- Translation of `_get_external_arch_pull_spec`:
`get_rebuilt_index_image(request_id) + f'-{arch}'`, with an optional
`docker://` transport. -/
def get_external_arch_pull_spec (env : Env) (request_id : Nat) (arch : String)
    (include_transport : Bool) : String :=
  let pull_spec := get_rebuilt_index_image env request_id ++ "-" ++ arch
  if include_transport then "docker://" ++ pull_spec else pull_spec

/-- Translation of `_get_image_arches`: for a v2 manifest list, the set of
architectures of every member manifest; for a single v2 manifest, the
singleton of the image's `Architecture`; otherwise an `IIBError`. -/
def get_image_arches (env : Env) (pull_spec : String) :
    Except String (Finset String) :=
  let skopeo_raw := env.inspectRaw pull_spec
  if skopeo_raw.mediaType = manifestListMediaType then
    .ok (skopeo_raw.manifests.map (fun m => m.platform_architecture)).toFinset
  else if skopeo_raw.mediaType = v2ManifestMediaType then
    .ok {env.inspectArchitecture pull_spec}
  else
    .error ("The pull specification of " ++ pull_spec ++
      " is neither a v2 manifest list nor a v2 manifest")

/-- The error message `_verify_labels` raises for a bad bundle. -/
def label_error_message (bundle label value : String) : String :=
  "The bundle " ++ bundle ++ " does not have the label " ++ label ++ "=" ++ value

/-- Inner loop of `_verify_labels`: check every `(label, value)` pair of
the configured policy against one bundle's labels, in iteration order. -/
def verify_labels_bundle (env : Env) (bundle : String) :
    List (String × String) → Except String Unit
  | [] => .ok ()
  | (label, value) :: rest =>
    if env.imageLabels bundle label = some value then
      verify_labels_bundle env bundle rest
    else
      .error (label_error_message bundle label value)

/-- Outer loop of `_verify_labels` over the bundles. -/
def verify_labels_go (env : Env) : List String → Except String Unit
  | [] => .ok ()
  | bundle :: rest =>
    match verify_labels_bundle env bundle env.iib_required_labels with
    | .error e => .error e
    | .ok _ => verify_labels_go env rest

/-- Translation of `_verify_labels`: nothing to check when the configured
`iib_required_labels` is empty, otherwise every bundle's labels are checked
against every configured pair, raising on the first mismatch. -/
def verify_labels (env : Env) (bundles : List String) : Except String Unit :=
  if env.iib_required_labels.isEmpty then .ok ()
  else verify_labels_go env bundles

/-- Specification-side description of the first label violation in
iteration order: the first bundle (in input order) having a mismatching
pair, together with the first mismatching `(label, value)` pair of the
policy for that bundle. -/
def first_label_violation (labelsOf : String → String → Option String)
    (policy : List (String × String)) : List String →
    Option (String × String × String)
  | [] => none
  | bundle :: rest =>
    match policy.find? fun lv => decide (labelsOf bundle lv.1 ≠ some lv.2) with
    | some lv => some (bundle, lv.1, lv.2)
    | none => first_label_violation labelsOf policy rest

/-- The error message `_verify_index_image` raises when the from-index
moved during the build. -/
def stale_index_message : String :=
  "The supplied from_index image changed during the IIB request." ++
  " Please resubmit the request."

/-- Translation of `_verify_index_image`: re-resolve the unresolved
from-index at verification time and compare with the value resolved before
the build.  The prebuild value is an `Option` because the request payload
stores `None` when no from-index was given (Python's `!=` against `None`
is true for any resolved string, modelled by the `some _ = none`
comparison being false). -/
def verify_index_image (env : Env) (resolved_prebuild_from_index : Option String)
    (unresolved_from_index : String) : Except String Unit :=
  let resolved_post_build_from_index := env.resolve2 unresolved_from_index
  if some resolved_post_build_from_index = resolved_prebuild_from_index then
    .ok ()
  else
    .error stale_index_message

/-! ## Manifest list descriptor (`_create_and_push_manifest_list`) -/

/-- One entry of the manifest descriptor file: the per-arch external image
reference and its platform. -/
structure ManifestEntry where
  image : String
  architecture : String
  os : String
  deriving DecidableEq

/-- The manifest entries written by `_create_and_push_manifest_list`: one
per architecture, iterating `sorted(arches)`. -/
def manifest_list_entries (env : Env) (request_id : Nat)
    (arches : Finset String) : List ManifestEntry :=
  (sortArches arches).map fun arch =>
    { image := get_external_arch_pull_spec env request_id arch false
      architecture := arch
      os := "linux" }

/-- YAML rendering of one manifest entry, as the dedented f-string of the
source writes it. -/
def render_manifest_entry (e : ManifestEntry) : String :=
  "- image: " ++ e.image ++ "\n  platform:\n    architecture: " ++
    e.architecture ++ "\n    os: " ++ e.os ++ "\n"

/-- Content of the `manifest.yaml` descriptor file written by
`_create_and_push_manifest_list`: the header naming the canonical output
pull spec, then the entries in sorted architecture order. -/
def manifest_list_content (env : Env) (request_id : Nat)
    (arches : Finset String) : String :=
  "image: " ++ get_rebuilt_index_image env request_id ++ "\nmanifests:\n" ++
    String.join ((manifest_list_entries env request_id arches).map
      render_manifest_entry)

/-- Return value of `_create_and_push_manifest_list`: the canonical output
pull specification (the push itself is recorded as an event by the
callers). -/
def create_and_push_manifest_list (env : Env) (request_id : Nat) : String :=
  get_rebuilt_index_image env request_id

/-! ## Request preparation (`_prepare_request_for_build`) -/

/-- The dictionary `_prepare_request_for_build` returns: the computed
architecture set and the digest-resolved binary image and from-index
references.  The `bundle_mapping` the source also computes is persisted in
the request store only (it is not returned and no later pipeline step
reads it), so the `update_request` call carrying it is modelled by an
`Event.updateRequest` with the payload's `state` field. -/
structure Prebuild where
  arches : Finset String
  binary_image_resolved : String
  from_index_resolved : Option String
  deriving DecidableEq

/-- The error message raised when the computed architecture set is not a
subset of the binary image's architectures, naming the missing arches in
sorted order. -/
def arch_error_message (missing : Finset String) : String :=
  "The binary image is not available for the following arches: " ++
    String.intercalate ", " (sortArches missing)

/-- Final checks and state update of `_prepare_request_for_build`, after
the architecture set has been computed: fail when the set is empty, fail
when it is not a subset of the binary image's architectures, otherwise
persist the resolved references and succeed. -/
def prepare_finish (request_id : Nat) (events : List Event)
    (arches : Finset String) (binary_image_resolved : String)
    (binary_image_arches : Finset String)
    (from_index_resolved : Option String) : List Event × Except String Prebuild :=
  if arches = ∅ then
    (events, .error "No arches were provided to build the index image")
  else if ¬ arches ⊆ binary_image_arches then
    (events, .error (arch_error_message (arches \ binary_image_arches)))
  else
    (events ++ [Event.updateRequest request_id "in_progress"],
      .ok ⟨arches, binary_image_resolved, from_index_resolved⟩)

/-- Translation of `_prepare_request_for_build`: report the `resolving`
state, seed the architecture set from `add_arches`, resolve the binary
image and collect its architectures, union in the from-index's
architectures when a from-index is given, then run the final checks. -/
def prepare_request_for_build (env : Env) (binary_image : String)
    (request_id : Nat) (from_index : Option String)
    (add_arches : List String) : List Event × Except String Prebuild :=
  let events := [Event.setState request_id "in_progress" "Resolving the images"]
  let arches0 : Finset String :=
    if add_arches.isEmpty then ∅ else add_arches.toFinset
  let binary_image_resolved := env.resolve1 binary_image
  match get_image_arches env binary_image_resolved with
  | .error e => (events, .error e)
  | .ok binary_image_arches =>
    match from_index with
    | some fi =>
      let from_index_resolved := env.resolve1 fi
      match get_image_arches env from_index_resolved with
      | .error e => (events, .error e)
      | .ok from_index_arches =>
        prepare_finish request_id events (arches0 ∪ from_index_arches)
          binary_image_resolved binary_image_arches (some from_index_resolved)
    | none =>
      prepare_finish request_id events arches0
        binary_image_resolved binary_image_arches none

/-- Statement-level helper naming the architecture set
`_prepare_request_for_build` computes before its checks: the union of the
`add_arches` seed and the from-index's architectures when a from-index is
given, the seed alone otherwise (failing when an inspection fails). -/
def computed_arches (env : Env) (from_index : Option String)
    (add_arches : List String) : Except String (Finset String) :=
  let arches0 : Finset String :=
    if add_arches.isEmpty then ∅ else add_arches.toFinset
  match from_index with
  | none => .ok arches0
  | some fi =>
    (get_image_arches env (env.resolve1 fi)).map fun fia => arches0 ∪ fia

/-! ## Per-arch build loop and the two request handlers -/

/-- The per-arch loop shared by both handlers: `for arch in
sorted(arches): _build_image(...); _push_image(...)`. -/
def build_and_push_list (request_id : Nat) : List String → List Event
  | [] => []
  | arch :: rest =>
    Event.buildImage request_id arch :: Event.pushImage request_id arch ::
      build_and_push_list request_id rest

/-- Events of the per-arch build/push loop over `sorted(arches)`. -/
def build_and_push_events (request_id : Nat) (arches : Finset String) :
    List Event :=
  build_and_push_list request_id (sortArches arches)

/-- The legacy gate at the top of `handle_add_request`: validation runs
only when some bundle requires legacy support. -/
def legacy_gate (env : Env) (legacy_support_packages bundles : List String)
    (cnr_token organization : Option String) : Except String Unit :=
  if legacy_support_packages.isEmpty then .ok ()
  else env.validate_legacy legacy_support_packages bundles cnr_token organization

/-- Translation of `handle_add_request`: label policy check, legacy
validation, host cleanup, preparation, add-mode generation (with the
resolved binary image and the unresolved from-index), sorted per-arch
build/push loop, from-index verification when a from-index was given,
manifest-list state report and push, optional legacy export, and the
final `complete` update. -/
def handle_add_request (env : Env) (bundles : List String)
    (binary_image : String) (request_id : Nat) (from_index : Option String)
    (add_arches : List String) (cnr_token organization : Option String) :
    List Event × Except String Unit :=
  match verify_labels env bundles with
  | .error e => ([], .error e)
  | .ok _ =>
    let legacy_support_packages := env.legacy_support_packages bundles
    match legacy_gate env legacy_support_packages bundles cnr_token organization with
    | .error e => ([], .error e)
    | .ok _ =>
      match prepare_request_for_build env binary_image request_id from_index
          add_arches with
      | (ev1, .error e) => (Event.cleanup :: ev1, .error e)
      | (ev1, .ok prebuild_info) =>
        let evs := Event.cleanup :: ev1 ++
          [Event.opmIndexAdd bundles prebuild_info.binary_image_resolved
            from_index] ++
          build_and_push_events request_id prebuild_info.arches
        match (match from_index with
               | none => Except.ok ()
               | some fi =>
                 verify_index_image env prebuild_info.from_index_resolved fi) with
        | .error e => (evs, .error e)
        | .ok _ =>
          (evs ++
            [Event.setState request_id "in_progress" "Creating the manifest list",
             Event.pushManifestList request_id] ++
            (if legacy_support_packages.isEmpty then []
             else [Event.legacyExport]) ++
            [Event.updateRequest request_id "complete"], .ok ())

/-- Translation of `handle_rm_request`: host cleanup, preparation (the
from-index is mandatory), remove-mode generation (with the caller-supplied
unresolved binary image and from-index), sorted per-arch build/push loop,
mandatory from-index verification, manifest-list state report and push,
and the final `complete` update. -/
def handle_rm_request (env : Env) (operators : List String)
    (binary_image : String) (request_id : Nat) (from_index : String)
    (add_arches : List String) : List Event × Except String Unit :=
  match prepare_request_for_build env binary_image request_id (some from_index)
      add_arches with
  | (ev1, .error e) => (Event.cleanup :: ev1, .error e)
  | (ev1, .ok prebuild_info) =>
    let evs := Event.cleanup :: ev1 ++
      [Event.opmIndexRm operators binary_image from_index] ++
      build_and_push_events request_id prebuild_info.arches
    match verify_index_image env prebuild_info.from_index_resolved from_index with
    | .error e => (evs, .error e)
    | .ok _ =>
      (evs ++
        [Event.setState request_id "in_progress" "Creating the manifest list",
         Event.pushManifestList request_id,
         Event.updateRequest request_id "complete"], .ok ())

/-- Property bundle used to state C7 about a trace `t`: the
index-generation step `gen` occurs exactly once; every build and push
event lies strictly after it; the built architectures are exactly the
sorted (ascending, duplicate-free) enumeration of `arches`, and so are the
pushed ones, so each required architecture is built and pushed exactly
once. -/
def generate_once_then_sorted_builds (t : List Event) (gen : Event)
    (arches : Finset String) : Prop :=
  t.countP Event.isGenerate = 1 ∧
  t.filterMap Event.buildArch = sortArches arches ∧
  t.filterMap Event.pushArch = sortArches arches ∧
  (sortArches arches).Nodup ∧
  (sortArches arches).toFinset = arches ∧
  List.Sorted stringLE (sortArches arches) ∧
  ∃ t1 t2, t = t1 ++ gen :: t2 ∧
    (∀ e ∈ t1, e.isGenerate = false ∧ e.isBuild = false ∧ e.isPush = false) ∧
    ∀ e ∈ t2, e.isGenerate = false

/-! ## Concrete environments used for witnesses and counterexamples -/

/-- A raw skopeo result describing a v2 manifest list with the given
member architectures. -/
def rawList (archList : List String) : SkopeoRaw :=
  ⟨manifestListMediaType, archList.map fun a => ⟨a⟩⟩

/-- A stable registry: the binary image provides `amd64` and `arm64`, the
index image provides `amd64`, nothing moves during the build, no label
policy, no legacy packages. -/
def env0 : Env where
  resolve1 := fun s => s ++ "@sha256:pre"
  resolve2 := fun s => s ++ "@sha256:pre"
  inspectRaw := fun s =>
    if s = "registry.example/binary@sha256:pre" then rawList ["amd64", "arm64"]
    else if s = "registry.example/index@sha256:pre" then rawList ["amd64"]
    else rawList []
  inspectArchitecture := fun _ => "amd64"
  imageLabels := fun _ _ => none
  iib_required_labels := []
  legacy_support_packages := fun _ => []
  validate_legacy := fun _ _ _ _ => .ok ()
  rebuilt_image := fun _ => "registry.example/iib:req"

/-- Like `env0`, but every tag re-resolves to a different digest at
verification time: the from-index moves during the build. -/
def env1 : Env where
  resolve1 := fun s => s ++ "@sha256:pre"
  resolve2 := fun s => s ++ "@sha256:post"
  inspectRaw := fun s =>
    if s = "registry.example/binary@sha256:pre" then rawList ["amd64", "arm64"]
    else if s = "registry.example/index@sha256:pre" then rawList ["amd64"]
    else rawList []
  inspectArchitecture := fun _ => "amd64"
  imageLabels := fun _ _ => none
  iib_required_labels := []
  legacy_support_packages := fun _ => []
  validate_legacy := fun _ _ _ _ => .ok ()
  rebuilt_image := fun _ => "registry.example/iib:req"

/-- Like `env0`, but with a required-label policy that no image satisfies
(every label lookup returns nothing). -/
def env2 : Env where
  resolve1 := fun s => s ++ "@sha256:pre"
  resolve2 := fun s => s ++ "@sha256:pre"
  inspectRaw := fun s =>
    if s = "registry.example/binary@sha256:pre" then rawList ["amd64", "arm64"]
    else if s = "registry.example/index@sha256:pre" then rawList ["amd64"]
    else rawList []
  inspectArchitecture := fun _ => "amd64"
  imageLabels := fun _ _ => none
  iib_required_labels := [("com.redhat.delivery.operator.bundle", "true")]
  legacy_support_packages := fun _ => []
  validate_legacy := fun _ _ _ _ => .ok ()
  rebuilt_image := fun _ => "registry.example/iib:req"

/-- An environment whose registry serves a single v2 manifest for the
spec `single`, an unsupported media type for the spec `weird`, and a
manifest list otherwise. -/
def env3 : Env where
  resolve1 := fun s => s ++ "@sha256:pre"
  resolve2 := fun s => s ++ "@sha256:pre"
  inspectRaw := fun s =>
    if s = "single" then ⟨v2ManifestMediaType, []⟩
    else if s = "weird" then ⟨"application/vnd.oci.image.index.v1+json", []⟩
    else rawList ["amd64", "arm64"]
  inspectArchitecture := fun _ => "s390x"
  imageLabels := fun _ _ => none
  iib_required_labels := []
  legacy_support_packages := fun _ => []
  validate_legacy := fun _ _ _ _ => .ok ()
  rebuilt_image := fun _ => "registry.example/iib:req"

/-! ## Lemmas about the decimal rendering -/

theorem digitChar_toNat (d : Nat) (h : d < 10) : (digitChar d).toNat = 48 + d := by
  interval_cases d <;> rfl

theorem digitChar_ne_dash (d : Nat) (h : d < 10) : digitChar d ≠ '-' := by
  interval_cases d <;> decide

theorem natOfDigits_append_singleton (l : List Char) (c : Char) :
    natOfDigits (l ++ [c]) = natOfDigits l * 10 + (c.toNat - 48) := by
  simp [natOfDigits, List.foldl_append]

theorem natOfDigits_natDigitsAux :
    ∀ fuel n, n < fuel → natOfDigits (natDigitsAux fuel n) = n := by
  intro fuel
  induction fuel with
  | zero => intro n h; omega
  | succ fuel ih =>
    intro n h
    unfold natDigitsAux
    by_cases h10 : n < 10
    · simp only [h10, if_true]
      simp [natOfDigits, digitChar_toNat n h10]
    · simp only [h10, if_false]
      rw [natOfDigits_append_singleton, ih (n / 10) (by omega),
        digitChar_toNat (n % 10) (by omega)]
      omega

theorem natOfDigits_natDigits (n : Nat) : natOfDigits (natDigits n) = n :=
  natOfDigits_natDigitsAux (n + 1) n (Nat.lt_succ_self n)

theorem natDigits_injective {m n : Nat} (h : natDigits m = natDigits n) :
    m = n := by
  have := congrArg natOfDigits h
  rwa [natOfDigits_natDigits, natOfDigits_natDigits] at this

theorem dash_not_mem_natDigitsAux :
    ∀ fuel n, '-' ∉ natDigitsAux fuel n := by
  intro fuel
  induction fuel with
  | zero => intro n; simp [natDigitsAux]
  | succ fuel ih =>
    intro n
    unfold natDigitsAux
    by_cases h10 : n < 10
    · simp only [h10, if_true, List.mem_singleton]
      exact fun hc => digitChar_ne_dash n h10 hc.symm
    · simp only [h10, if_false, List.mem_append, List.mem_singleton]
      rintro (hc | hc)
      · exact ih (n / 10) hc
      · exact digitChar_ne_dash (n % 10) (by omega) hc.symm

theorem dash_not_mem_natDigits (n : Nat) : '-' ∉ natDigits n :=
  dash_not_mem_natDigitsAux (n + 1) n

theorem append_cons_dash_inj :
    ∀ (l1 a1 l2 a2 : List Char), '-' ∉ l1 → '-' ∉ l2 →
      l1 ++ '-' :: a1 = l2 ++ '-' :: a2 → l1 = l2 ∧ a1 = a2 := by
  intro l1
  induction l1 with
  | nil =>
    intro a1 l2 a2 _ h2 heq
    cases l2 with
    | nil => simpa using heq
    | cons c l2 =>
      exfalso
      simp only [List.nil_append, List.cons_append, List.cons.injEq] at heq
      exact h2 (heq.1 ▸ List.mem_cons_self c l2)
  | cons c l1 ih =>
    intro a1 l2 a2 h1 h2 heq
    cases l2 with
    | nil =>
      exfalso
      simp only [List.nil_append, List.cons_append, List.cons.injEq] at heq
      exact h1 (heq.1 ▸ List.mem_cons_self c l1)
    | cons d l2 =>
      simp only [List.cons_append, List.cons.injEq] at heq
      obtain ⟨hcd, htail⟩ := heq
      have h1' : '-' ∉ l1 := fun hm => h1 (List.mem_cons_of_mem c hm)
      have h2' : '-' ∉ l2 := fun hm => h2 (List.mem_cons_of_mem d hm)
      obtain ⟨he1, he2⟩ := ih a1 l2 a2 h1' h2' htail
      exact ⟨by rw [hcd, he1], he2⟩

/-! ## Claim C10 -/

/-- C10: the local image tag `_get_local_pull_spec` maps `(request_id,
arch)` to `iib-build:<request_id>-<arch>` injectively: two distinct pairs
always produce distinct local tags, even when the architecture name itself
contains dashes, because the decimal rendering of the request id contains
no dash, so the first dash after the fixed head separates the id from the
arch unambiguously. -/
theorem claim_C10_local_tag_injective (id1 : Nat) (a1 : String) (id2 : Nat)
    (a2 : String) (h : get_local_pull_spec id1 a1 = get_local_pull_spec id2 a2) :
    id1 = id2 ∧ a1 = a2 := by
  have hd := congrArg String.data h
  simp only [get_local_pull_spec, natRepr, String.data_append,
    List.append_assoc] at hd
  have h2 := List.append_cancel_left hd
  have h3 : natDigits id1 ++ '-' :: a1.data = natDigits id2 ++ '-' :: a2.data := by
    simpa using h2
  obtain ⟨hdig, hdata⟩ := append_cons_dash_inj (natDigits id1) a1.data
    (natDigits id2) a2.data (dash_not_mem_natDigits id1)
    (dash_not_mem_natDigits id2) h3
  exact ⟨natDigits_injective hdig, String.ext hdata⟩

/-- Witness for C10 at a concrete input. -/
theorem claim_C10_local_tag_injective_witness :
    (3 : Nat) = 3 ∧ ("ppc64le" : String) = "ppc64le" :=
  claim_C10_local_tag_injective 3 "ppc64le" 3 "ppc64le" rfl

/-! ## Lemmas about the sorted extraction -/

theorem sortArches_sorted (s : Finset String) :
    List.Sorted stringLE (sortArches s) := by
  rcases s with ⟨m, hnd⟩
  induction m using Quotient.inductionOn with
  | h l => exact List.sorted_insertionSort _ l

theorem mem_sortArches {a : String} {s : Finset String} :
    a ∈ sortArches s ↔ a ∈ s := by
  rcases s with ⟨m, hnd⟩
  induction m using Quotient.inductionOn with
  | h l =>
    show a ∈ List.insertionSort stringLE l ↔ _
    rw [(List.perm_insertionSort stringLE l).mem_iff]
    simp [Finset.mem_def]

theorem sortArches_nodup (s : Finset String) : (sortArches s).Nodup := by
  rcases s with ⟨m, hnd⟩
  induction m using Quotient.inductionOn with
  | h l =>
    exact (List.perm_insertionSort stringLE l).nodup_iff.mpr
      (by exact Multiset.coe_nodup.mp hnd)

theorem sortArches_toFinset (s : Finset String) :
    (sortArches s).toFinset = s := by
  ext a
  rw [List.mem_toFinset, mem_sortArches]

/-! ## Lemmas about the per-arch build/push loop -/

theorem build_and_push_list_mem {request_id : Nat} {l : List String} {e : Event}
    (h : e ∈ build_and_push_list request_id l) :
    (∃ a ∈ l, e = Event.buildImage request_id a) ∨
      ∃ a ∈ l, e = Event.pushImage request_id a := by
  induction l with
  | nil => simp [build_and_push_list] at h
  | cons a rest ih =>
    simp only [build_and_push_list, List.mem_cons] at h
    rcases h with h | h | h
    · exact Or.inl ⟨a, List.mem_cons_self a rest, h⟩
    · exact Or.inr ⟨a, List.mem_cons_self a rest, h⟩
    · rcases ih h with ⟨b, hb, he⟩ | ⟨b, hb, he⟩
      · exact Or.inl ⟨b, List.mem_cons_of_mem a hb, he⟩
      · exact Or.inr ⟨b, List.mem_cons_of_mem a hb, he⟩

theorem build_and_push_list_flags {request_id : Nat} {l : List String} {e : Event}
    (h : e ∈ build_and_push_list request_id l) :
    e.isGenerate = false ∧ e.isComplete = false ∧ e.isManifestPush = false := by
  rcases build_and_push_list_mem h with ⟨a, _, rfl⟩ | ⟨a, _, rfl⟩ <;>
    exact ⟨rfl, rfl, rfl⟩

theorem build_and_push_list_filterMap_build (request_id : Nat) (l : List String) :
    (build_and_push_list request_id l).filterMap Event.buildArch = l := by
  induction l with
  | nil => rfl
  | cons a rest ih =>
    simp [build_and_push_list, List.filterMap_cons, Event.buildArch, ih]

theorem build_and_push_list_filterMap_push (request_id : Nat) (l : List String) :
    (build_and_push_list request_id l).filterMap Event.pushArch = l := by
  induction l with
  | nil => rfl
  | cons a rest ih =>
    simp [build_and_push_list, List.filterMap_cons, Event.pushArch, ih]

theorem build_and_push_list_countP_generate (request_id : Nat) (l : List String) :
    (build_and_push_list request_id l).countP Event.isGenerate = 0 := by
  rw [List.countP_eq_zero]
  intro e he
  simp [(build_and_push_list_flags he).1]

/-! ## Shape lemmas about `_prepare_request_for_build` -/

theorem arches_seed_eq (add_arches : List String) :
    (if add_arches.isEmpty then (∅ : Finset String) else add_arches.toFinset) =
      add_arches.toFinset := by
  cases h : add_arches.isEmpty
  · simp
  · rw [List.isEmpty_iff] at h
    simp [h]

theorem prepare_finish_ok_spec {request_id : Nat} {events : List Event}
    {arches : Finset String} {bir : String} {biA : Finset String}
    {fir : Option String} {evs : List Event} {pre : Prebuild}
    (h : prepare_finish request_id events arches bir biA fir = (evs, .ok pre)) :
    evs = events ++ [Event.updateRequest request_id "in_progress"] ∧
    pre = ⟨arches, bir, fir⟩ ∧ arches ≠ ∅ ∧ arches ⊆ biA := by
  unfold prepare_finish at h
  by_cases h1 : arches = ∅
  · rw [if_pos h1] at h
    simp at h
  · rw [if_neg h1] at h
    by_cases h2 : ¬ arches ⊆ biA
    · rw [if_pos h2] at h
      simp at h
    · rw [if_neg h2] at h
      simp only [Prod.mk.injEq, Except.ok.injEq] at h
      exact ⟨h.1.symm, h.2.symm, h1, not_not.mp h2⟩

theorem prepare_ok_spec {env : Env} {binary_image : String} {request_id : Nat}
    {from_index : Option String} {add_arches : List String} {evs : List Event}
    {pre : Prebuild}
    (h : prepare_request_for_build env binary_image request_id from_index
      add_arches = (evs, .ok pre)) :
    evs = [Event.setState request_id "in_progress" "Resolving the images",
           Event.updateRequest request_id "in_progress"] ∧
    pre.binary_image_resolved = env.resolve1 binary_image ∧
    pre.from_index_resolved = from_index.map env.resolve1 ∧
    computed_arches env from_index add_arches = .ok pre.arches ∧
    pre.arches ≠ ∅ ∧
    ∀ biA, get_image_arches env (env.resolve1 binary_image) = .ok biA →
      pre.arches ⊆ biA := by
  cases hbi : get_image_arches env (env.resolve1 binary_image) with
  | error e =>
    simp only [prepare_request_for_build, hbi] at h
    simp at h
  | ok biA =>
    cases from_index with
    | none =>
      simp only [prepare_request_for_build, hbi] at h
      rw [arches_seed_eq] at h
      obtain ⟨hevs, hpre, hne, hsub⟩ := prepare_finish_ok_spec h
      subst hpre
      refine ⟨by simpa using hevs, rfl, rfl, ?_, hne, ?_⟩
      · simp only [computed_arches]
        rw [arches_seed_eq]
      · intro biA' hbiA'
        injection hbiA' with hinj
        subst hinj
        exact hsub
    | some f =>
      cases hfi : get_image_arches env (env.resolve1 f) with
      | error e =>
        simp only [prepare_request_for_build, hbi, hfi] at h
        simp at h
      | ok fiA =>
        simp only [prepare_request_for_build, hbi, hfi] at h
        rw [arches_seed_eq] at h
        obtain ⟨hevs, hpre, hne, hsub⟩ := prepare_finish_ok_spec h
        subst hpre
        refine ⟨by simpa using hevs, rfl, rfl, ?_, hne, ?_⟩
        · simp only [computed_arches, Except.map]
          rw [arches_seed_eq, hfi]
        · intro biA' hbiA'
          injection hbiA' with hinj
          subst hinj
          exact hsub

theorem prepare_arch_unavailable {env : Env} {binary_image : String}
    {request_id : Nat} {from_index : Option String} {add_arches : List String}
    {A biA : Finset String}
    (hbi : get_image_arches env (env.resolve1 binary_image) = .ok biA)
    (hA : computed_arches env from_index add_arches = .ok A)
    (hne : A ≠ ∅) (hnsub : ¬ A ⊆ biA) :
    prepare_request_for_build env binary_image request_id from_index add_arches =
      ([Event.setState request_id "in_progress" "Resolving the images"],
        .error (arch_error_message (A \ biA))) := by
  cases from_index with
  | none =>
    simp only [computed_arches] at hA
    rw [arches_seed_eq] at hA
    injection hA with hA
    simp only [prepare_request_for_build, hbi, prepare_finish]
    rw [arches_seed_eq, hA, if_neg hne, if_pos hnsub]
  | some f =>
    cases hfi : get_image_arches env (env.resolve1 f) with
    | error e => simp [computed_arches, hfi, Except.map] at hA
    | ok fiA =>
      simp only [computed_arches, hfi, Except.map] at hA
      rw [arches_seed_eq] at hA
      injection hA with hA
      simp only [prepare_request_for_build, hbi, hfi, prepare_finish]
      rw [arches_seed_eq, hA, if_neg hne, if_pos hnsub]

/-! ## Shape lemmas about the two request handlers -/

theorem handle_add_prepare_error {env : Env} {bundles : List String}
    {binary_image : String} {request_id : Nat} {from_index : Option String}
    {add_arches : List String} {cnr_token organization : Option String}
    {evs1 : List Event} {e : String}
    (hv : verify_labels env bundles = .ok ())
    (hl : legacy_gate env (env.legacy_support_packages bundles) bundles
      cnr_token organization = .ok ())
    (hp : prepare_request_for_build env binary_image request_id from_index
      add_arches = (evs1, .error e)) :
    handle_add_request env bundles binary_image request_id from_index add_arches
      cnr_token organization = (Event.cleanup :: evs1, .error e) := by
  simp only [handle_add_request, hv, hl, hp]

theorem handle_add_stale_shape {env : Env} {bundles : List String}
    {binary_image : String} {request_id : Nat} {from_index : Option String}
    {add_arches : List String} {cnr_token organization : Option String}
    {evs1 : List Event} {pre : Prebuild} {e : String}
    (hv : verify_labels env bundles = .ok ())
    (hl : legacy_gate env (env.legacy_support_packages bundles) bundles
      cnr_token organization = .ok ())
    (hp : prepare_request_for_build env binary_image request_id from_index
      add_arches = (evs1, .ok pre))
    (hverify : (match from_index with
       | none => Except.ok ()
       | some f => verify_index_image env pre.from_index_resolved f) =
      .error e) :
    handle_add_request env bundles binary_image request_id from_index add_arches
      cnr_token organization =
      (Event.cleanup :: evs1 ++
        [Event.opmIndexAdd bundles pre.binary_image_resolved from_index] ++
        build_and_push_events request_id pre.arches, .error e) := by
  simp only [handle_add_request, hv, hl, hp, hverify]

theorem handle_add_ok_shape {env : Env} {bundles : List String}
    {binary_image : String} {request_id : Nat} {from_index : Option String}
    {add_arches : List String} {cnr_token organization : Option String}
    {evs1 : List Event} {pre : Prebuild}
    (hv : verify_labels env bundles = .ok ())
    (hl : legacy_gate env (env.legacy_support_packages bundles) bundles
      cnr_token organization = .ok ())
    (hp : prepare_request_for_build env binary_image request_id from_index
      add_arches = (evs1, .ok pre))
    (hverify : (match from_index with
       | none => Except.ok ()
       | some f => verify_index_image env pre.from_index_resolved f) =
      .ok ()) :
    handle_add_request env bundles binary_image request_id from_index add_arches
      cnr_token organization =
      (Event.cleanup :: evs1 ++
        [Event.opmIndexAdd bundles pre.binary_image_resolved from_index] ++
        build_and_push_events request_id pre.arches ++
        [Event.setState request_id "in_progress" "Creating the manifest list",
         Event.pushManifestList request_id] ++
        (if (env.legacy_support_packages bundles).isEmpty then []
         else [Event.legacyExport]) ++
        [Event.updateRequest request_id "complete"], .ok ()) := by
  simp only [handle_add_request, hv, hl, hp, hverify]

theorem handle_rm_prepare_error {env : Env} {operators : List String}
    {binary_image : String} {request_id : Nat} {from_index : String}
    {add_arches : List String} {evs1 : List Event} {e : String}
    (hp : prepare_request_for_build env binary_image request_id
      (some from_index) add_arches = (evs1, .error e)) :
    handle_rm_request env operators binary_image request_id from_index
      add_arches = (Event.cleanup :: evs1, .error e) := by
  simp only [handle_rm_request, hp]

theorem handle_rm_stale_shape {env : Env} {operators : List String}
    {binary_image : String} {request_id : Nat} {from_index : String}
    {add_arches : List String} {evs1 : List Event} {pre : Prebuild} {e : String}
    (hp : prepare_request_for_build env binary_image request_id
      (some from_index) add_arches = (evs1, .ok pre))
    (hverify : verify_index_image env pre.from_index_resolved from_index =
      .error e) :
    handle_rm_request env operators binary_image request_id from_index
      add_arches =
      (Event.cleanup :: evs1 ++
        [Event.opmIndexRm operators binary_image from_index] ++
        build_and_push_events request_id pre.arches, .error e) := by
  simp only [handle_rm_request, hp, hverify]

theorem handle_rm_ok_shape {env : Env} {operators : List String}
    {binary_image : String} {request_id : Nat} {from_index : String}
    {add_arches : List String} {evs1 : List Event} {pre : Prebuild}
    (hp : prepare_request_for_build env binary_image request_id
      (some from_index) add_arches = (evs1, .ok pre))
    (hverify : verify_index_image env pre.from_index_resolved from_index =
      .ok ()) :
    handle_rm_request env operators binary_image request_id from_index
      add_arches =
      (Event.cleanup :: evs1 ++
        [Event.opmIndexRm operators binary_image from_index] ++
        build_and_push_events request_id pre.arches ++
        [Event.setState request_id "in_progress" "Creating the manifest list",
         Event.pushManifestList request_id,
         Event.updateRequest request_id "complete"], .ok ()) := by
  simp only [handle_rm_request, hp, hverify]

/-! ## Lemmas about the label policy check -/

theorem verify_labels_bundle_eq_find (env : Env) (bundle : String)
    (policy : List (String × String)) :
    verify_labels_bundle env bundle policy =
      match policy.find? fun lv =>
          decide (env.imageLabels bundle lv.1 ≠ some lv.2) with
      | none => .ok ()
      | some lv => .error (label_error_message bundle lv.1 lv.2) := by
  induction policy with
  | nil => rfl
  | cons lv rest ih =>
    obtain ⟨label, value⟩ := lv
    by_cases hm : env.imageLabels bundle label = some value
    · have hpred : (decide (env.imageLabels bundle (label, value).1 ≠
          some (label, value).2)) = false := by simp [hm]
      rw [List.find?_cons_of_neg _ (by simpa using hpred)]
      simpa [verify_labels_bundle, hm] using ih
    · have hpred : (decide (env.imageLabels bundle (label, value).1 ≠
          some (label, value).2)) = true := by simp [hm]
      rw [List.find?_cons_of_pos _ (by simpa using hpred)]
      simp [verify_labels_bundle, hm]

theorem verify_labels_go_eq (env : Env) (bundles : List String) :
    verify_labels_go env bundles =
      match first_label_violation env.imageLabels env.iib_required_labels
          bundles with
      | none => .ok ()
      | some blv => .error (label_error_message blv.1 blv.2.1 blv.2.2) := by
  induction bundles with
  | nil => rfl
  | cons b rest ih =>
    simp only [verify_labels_go, verify_labels_bundle_eq_find,
      first_label_violation]
    cases hf : List.find?
        (fun lv => decide (env.imageLabels b lv.1 ≠ some lv.2))
        env.iib_required_labels with
    | none => simpa using ih
    | some lv => rfl

theorem first_label_violation_empty_policy
    (labelsOf : String → String → Option String) (bundles : List String) :
    first_label_violation labelsOf [] bundles = none := by
  induction bundles with
  | nil => rfl
  | cons b rest ih => simpa [first_label_violation] using ih

theorem verify_labels_of_violation {env : Env} {bundles : List String}
    {b l v : String}
    (h : first_label_violation env.imageLabels env.iib_required_labels bundles =
      some (b, l, v)) :
    verify_labels env bundles = .error (label_error_message b l v) := by
  have hiso : env.iib_required_labels.isEmpty = false := by
    cases hpol : env.iib_required_labels
    · rw [hpol] at h
      rw [first_label_violation_empty_policy] at h
      simp at h
    · rfl
  simp only [verify_labels, hiso, Bool.false_eq_true, if_false]
  rw [verify_labels_go_eq, h]

theorem mem_build_and_push_events {e : Event} {request_id : Nat}
    {arches : Finset String} (h : e ∈ build_and_push_events request_id arches) :
    (∃ a ∈ arches, e = Event.buildImage request_id a) ∨
      ∃ a ∈ arches, e = Event.pushImage request_id a := by
  rcases build_and_push_list_mem h with ⟨a, ha, he⟩ | ⟨a, ha, he⟩
  · exact Or.inl ⟨a, mem_sortArches.mp ha, he⟩
  · exact Or.inr ⟨a, mem_sortArches.mp ha, he⟩

/-! ## Claim C5 -/

/-- C5: for every add request under a non-empty required-label policy, if
some bundle's value for a required label is not exactly the expected
value, the whole batch fails with the error naming the first mismatching
(bundle, label) pair in iteration order, and the event trace is empty: the
failure happens before host cleanup, image resolution, index generation and
any build or push step (zero side effects). -/
theorem claim_C5_label_policy_fail_fast {env : Env} {bundles : List String}
    {binary_image : String} {request_id : Nat} {from_index : Option String}
    {add_arches : List String} {cnr_token organization : Option String}
    {b l v : String}
    (hfv : first_label_violation env.imageLabels env.iib_required_labels
      bundles = some (b, l, v)) :
    handle_add_request env bundles binary_image request_id from_index add_arches
      cnr_token organization = ([], .error (label_error_message b l v)) := by
  simp only [handle_add_request, verify_labels_of_violation hfv]

/-- Witness for C5: under `env2`, whose policy requires
`com.redhat.delivery.operator.bundle=true` and whose images carry no
labels, an add request fails with the first violation and an empty trace. -/
theorem claim_C5_label_policy_fail_fast_witness :
    handle_add_request env2 ["quay.io/ns/bundle:v1"] "registry.example/binary" 7
      none ["amd64"] none none =
      ([], .error (label_error_message "quay.io/ns/bundle:v1"
        "com.redhat.delivery.operator.bundle" "true")) :=
  claim_C5_label_policy_fail_fast (by decide)

/-! ## Claim C1 -/

/-- C1 counterexample: an rm request whose caller supplies
`add_arches=["arm64"]` against a base index that only provides `amd64`
succeeds and builds `arm64`, an architecture the base index does not
provide — so the computed build architecture set of an rm request is not
always contained in the base index's architecture set. -/
theorem claim_C1_counterexample :
    (handle_rm_request env0 ["some-operator"] "registry.example/binary" 5
      "registry.example/index" ["arm64"]).2 = .ok () ∧
    Event.buildImage 5 "arm64" ∈
      (handle_rm_request env0 ["some-operator"] "registry.example/binary" 5
        "registry.example/index" ["arm64"]).1 ∧
    get_image_arches env0 (env0.resolve1 "registry.example/index") =
      .ok {"amd64"} ∧
    "arm64" ∉ ({"amd64"} : Finset String) := by decide

/-- C1 amended: for every rm request, the computed build architecture set
is the union of the caller-supplied `add_arches` and the base index's
architecture set; in particular, when the caller supplies no `add_arches`,
it equals the base index's architecture set and no new architectures are
introduced (every built architecture belongs to the base index's set). -/
theorem claim_C1_rm_no_growth_without_add_arches {env : Env}
    {operators : List String} {binary_image : String} {request_id : Nat}
    {from_index : String} {fia : Finset String} {evs : List Event}
    {pre : Prebuild}
    (hfi : get_image_arches env (env.resolve1 from_index) = .ok fia)
    (hp : prepare_request_for_build env binary_image request_id
      (some from_index) [] = (evs, .ok pre)) :
    pre.arches = fia ∧
    ∀ a, Event.buildImage request_id a ∈
        (handle_rm_request env operators binary_image request_id from_index
          []).1 →
      a ∈ fia := by
  obtain ⟨hevs, _, _, hca, _, _⟩ := prepare_ok_spec hp
  have harch : pre.arches = fia := by
    simp only [computed_arches, hfi, Except.map] at hca
    injection hca with hca
    rw [← hca]
    simp
  refine ⟨harch, ?_⟩
  intro a ha
  cases hver : verify_index_image env pre.from_index_resolved from_index with
  | error e =>
    rw [handle_rm_stale_shape hp hver] at ha
    subst hevs
    have hbp : Event.buildImage request_id a ∈
        build_and_push_events request_id pre.arches := by
      simpa using ha
    rcases mem_build_and_push_events hbp with ⟨c, hc, he⟩ | ⟨c, hc, he⟩
    · injection he with h1 h2
      subst h2
      exact harch ▸ hc
    · exact absurd he (by simp)
  | ok u =>
    cases u
    rw [handle_rm_ok_shape hp hver] at ha
    subst hevs
    have hbp : Event.buildImage request_id a ∈
        build_and_push_events request_id pre.arches := by
      simpa using ha
    rcases mem_build_and_push_events hbp with ⟨c, hc, he⟩ | ⟨c, hc, he⟩
    · injection he with h1 h2
      subst h2
      exact harch ▸ hc
    · exact absurd he (by simp)

/-- Witness for the amended C1 at a concrete input: with no `add_arches`,
the rm preparation under `env0` computes exactly the base index's set. -/
theorem claim_C1_rm_no_growth_witness :
    (⟨{"amd64"}, "registry.example/binary@sha256:pre",
      some "registry.example/index@sha256:pre"⟩ : Prebuild).arches =
      {"amd64"} ∧
    ∀ a, Event.buildImage 5 a ∈
        (handle_rm_request env0 ["some-operator"] "registry.example/binary" 5
          "registry.example/index" []).1 →
      a ∈ ({"amd64"} : Finset String) :=
  @claim_C1_rm_no_growth_without_add_arches env0 ["some-operator"]
    "registry.example/binary" 5 "registry.example/index" {"amd64"}
    [Event.setState 5 "in_progress" "Resolving the images",
     Event.updateRequest 5 "in_progress"]
    ⟨{"amd64"}, "registry.example/binary@sha256:pre",
      some "registry.example/index@sha256:pre"⟩
    (by decide) (by decide)

/-! ## Claim C2 -/

/-- C2: for every request (add or rm), if the computed architecture set is
not a subset of the architectures supported by the resolved binary image,
preparation fails with the error naming the unavailable architectures (the
sorted difference), and the whole trace is just host cleanup and the
`resolving` state report: no index generation, per-arch build, push or
manifest step has executed. -/
theorem claim_C2_arch_unavailable_fail_fast {env : Env} {bundles : List String}
    {binary_image : String} {request_id : Nat} {from_index : Option String}
    {add_arches : List String} {cnr_token organization : Option String}
    {operators : List String} {from_index_rm : String} {biA : Finset String}
    (hbi : get_image_arches env (env.resolve1 binary_image) = .ok biA) :
    (∀ A, computed_arches env from_index add_arches = .ok A →
      ¬ A ⊆ biA →
      verify_labels env bundles = .ok () →
      legacy_gate env (env.legacy_support_packages bundles) bundles cnr_token
        organization = .ok () →
      handle_add_request env bundles binary_image request_id from_index
        add_arches cnr_token organization =
        ([Event.cleanup,
          Event.setState request_id "in_progress" "Resolving the images"],
          .error (arch_error_message (A \ biA)))) ∧
    (∀ A, computed_arches env (some from_index_rm) add_arches = .ok A →
      ¬ A ⊆ biA →
      handle_rm_request env operators binary_image request_id from_index_rm
        add_arches =
        ([Event.cleanup,
          Event.setState request_id "in_progress" "Resolving the images"],
          .error (arch_error_message (A \ biA)))) := by
  have hne_of : ∀ A : Finset String, ¬ A ⊆ biA → A ≠ ∅ := by
    rintro A hnsub rfl
    exact hnsub (Finset.empty_subset biA)
  constructor
  · intro A hA hnsub hv hl
    exact handle_add_prepare_error hv hl
      (prepare_arch_unavailable hbi hA (hne_of A hnsub) hnsub)
  · intro A hA hnsub
    exact handle_rm_prepare_error
      (prepare_arch_unavailable hbi hA (hne_of A hnsub) hnsub)

/-- Witness for C2: under `env0` a request asking for `s390x`, which the
binary image does not provide, fails naming `s390x` with only cleanup and
the resolving report in the trace, for both request kinds. -/
theorem claim_C2_arch_unavailable_witness :
    (handle_add_request env0 [] "registry.example/binary" 11
      (some "registry.example/index") ["s390x"] none none =
      ([Event.cleanup, Event.setState 11 "in_progress" "Resolving the images"],
        .error (arch_error_message
          (({"s390x", "amd64"} : Finset String) \ {"amd64", "arm64"})))) ∧
    (handle_rm_request env0 ["some-operator"] "registry.example/binary" 11
      "registry.example/index" ["s390x"] =
      ([Event.cleanup, Event.setState 11 "in_progress" "Resolving the images"],
        .error (arch_error_message
          (({"s390x", "amd64"} : Finset String) \ {"amd64", "arm64"})))) := by
  have h := @claim_C2_arch_unavailable_fail_fast env0 [] "registry.example/binary"
    11 (some "registry.example/index") ["s390x"] none none ["some-operator"]
    "registry.example/index" {"amd64", "arm64"} (by decide)
  exact ⟨h.1 {"s390x", "amd64"} (by decide) (by decide) (by decide) (by decide),
    h.2 {"s390x", "amd64"} (by decide) (by decide)⟩

/-! ## Claim C3 -/

/-- C3: for every add request with a base index, the computed build
architecture set equals the union of the caller-requested `add_arches` and
the architectures of the resolved base index; with no base index it equals
the `add_arches` set alone; and in the concrete scenario of the spec
(binary image arches amd64 and arm64, base index arch amd64, empty
`add_arches`) preparation computes exactly the singleton amd64. -/
theorem claim_C3_add_arches_union {env : Env} {binary_image : String}
    {request_id : Nat} {add_arches : List String} :
    (∀ fi fia evs pre, get_image_arches env (env.resolve1 fi) = .ok fia →
      prepare_request_for_build env binary_image request_id (some fi)
        add_arches = (evs, .ok pre) →
      pre.arches = add_arches.toFinset ∪ fia) ∧
    (∀ evs pre, prepare_request_for_build env binary_image request_id none
        add_arches = (evs, .ok pre) →
      pre.arches = add_arches.toFinset) ∧
    (prepare_request_for_build env0 "registry.example/binary" 1
        (some "registry.example/index") []).2 =
      .ok ⟨{"amd64"}, "registry.example/binary@sha256:pre",
        some "registry.example/index@sha256:pre"⟩ := by
  refine ⟨?_, ?_, by decide⟩
  · intro fi fia evs pre hfi hp
    obtain ⟨_, _, _, hca, _, _⟩ := prepare_ok_spec hp
    simp only [computed_arches, hfi, Except.map] at hca
    rw [arches_seed_eq] at hca
    injection hca with hca
    exact hca.symm
  · intro evs pre hp
    obtain ⟨_, _, _, hca, _, _⟩ := prepare_ok_spec hp
    simp only [computed_arches] at hca
    rw [arches_seed_eq] at hca
    injection hca with hca
    exact hca.symm

/-- Witness for C3 at the concrete scenario of the spec. -/
theorem claim_C3_add_arches_union_witness :
    (⟨{"amd64"}, "registry.example/binary@sha256:pre",
      some "registry.example/index@sha256:pre"⟩ : Prebuild).arches =
      ([] : List String).toFinset ∪ {"amd64"} :=
  (@claim_C3_add_arches_union env0 "registry.example/binary" 1 []).1
    "registry.example/index" {"amd64"}
    [Event.setState 1 "in_progress" "Resolving the images",
     Event.updateRequest 1 "in_progress"]
    ⟨{"amd64"}, "registry.example/binary@sha256:pre",
      some "registry.example/index@sha256:pre"⟩
    (by decide) (by decide)

/-! ## Claim C4 -/

/-- C4: for every request with a base index (the add conjunct and the rm
conjunct), if re-resolving the unresolved base-index reference after the
per-arch builds yields a reference different from the one resolved before
the build began, the pipeline fails with the stale-index error telling the
caller to resubmit, and the trace contains neither a `complete` request
update nor a manifest-list push: verification runs before manifest
assembly and before the final complete update, so a complete state is
never persisted. -/
theorem claim_C4_stale_index {env : Env} {bundles operators : List String}
    {binary_image : String} {request_id : Nat}
    {from_index from_index_rm : String} {add_arches : List String}
    {cnr_token organization : Option String} :
    (∀ evs1 pre,
      verify_labels env bundles = .ok () →
      legacy_gate env (env.legacy_support_packages bundles) bundles cnr_token
        organization = .ok () →
      prepare_request_for_build env binary_image request_id (some from_index)
        add_arches = (evs1, .ok pre) →
      env.resolve2 from_index ≠ env.resolve1 from_index →
      (handle_add_request env bundles binary_image request_id (some from_index)
        add_arches cnr_token organization).2 = .error stale_index_message ∧
      ∀ e ∈ (handle_add_request env bundles binary_image request_id
          (some from_index) add_arches cnr_token organization).1,
        e.isComplete = false ∧ e.isManifestPush = false) ∧
    (∀ evs1 pre,
      prepare_request_for_build env binary_image request_id
        (some from_index_rm) add_arches = (evs1, .ok pre) →
      env.resolve2 from_index_rm ≠ env.resolve1 from_index_rm →
      (handle_rm_request env operators binary_image request_id from_index_rm
        add_arches).2 = .error stale_index_message ∧
      ∀ e ∈ (handle_rm_request env operators binary_image request_id
          from_index_rm add_arches).1,
        e.isComplete = false ∧ e.isManifestPush = false) := by
  constructor
  · intro evs1 pre hv hl hp hneq
    obtain ⟨hevs, _, hfir, _, _, _⟩ := prepare_ok_spec hp
    have hver : (match (some from_index : Option String) with
        | none => Except.ok ()
        | some f => verify_index_image env pre.from_index_resolved f) =
        .error stale_index_message := by
      show verify_index_image env pre.from_index_resolved from_index = _
      rw [hfir]
      unfold verify_index_image
      rw [if_neg (by simpa using hneq)]
    rw [handle_add_stale_shape hv hl hp hver]
    refine ⟨rfl, ?_⟩
    intro e he
    subst hevs
    simp at he
    rcases he with rfl | rfl | rfl | rfl | hbp
    · exact ⟨rfl, rfl⟩
    · exact ⟨rfl, rfl⟩
    · exact ⟨rfl, rfl⟩
    · exact ⟨rfl, rfl⟩
    · exact ⟨(build_and_push_list_flags hbp).2.1,
        (build_and_push_list_flags hbp).2.2⟩
  · intro evs1 pre hp hneq
    obtain ⟨hevs, _, hfir, _, _, _⟩ := prepare_ok_spec hp
    have hver : verify_index_image env pre.from_index_resolved from_index_rm =
        .error stale_index_message := by
      rw [hfir]
      unfold verify_index_image
      rw [if_neg (by simpa using hneq)]
    rw [handle_rm_stale_shape hp hver]
    refine ⟨rfl, ?_⟩
    intro e he
    subst hevs
    simp at he
    rcases he with rfl | rfl | rfl | rfl | hbp
    · exact ⟨rfl, rfl⟩
    · exact ⟨rfl, rfl⟩
    · exact ⟨rfl, rfl⟩
    · exact ⟨rfl, rfl⟩
    · exact ⟨(build_and_push_list_flags hbp).2.1,
        (build_and_push_list_flags hbp).2.2⟩

/-- Witness for C4 under `env1`, where the from-index tag re-resolves to a
different digest at verification time. -/
theorem claim_C4_stale_index_witness :
    ((handle_add_request env1 [] "registry.example/binary" 9
        (some "registry.example/index") [] none none).2 =
      .error stale_index_message ∧
      ∀ e ∈ (handle_add_request env1 [] "registry.example/binary" 9
          (some "registry.example/index") [] none none).1,
        e.isComplete = false ∧ e.isManifestPush = false) ∧
    ((handle_rm_request env1 ["some-operator"] "registry.example/binary" 9
        "registry.example/index" []).2 = .error stale_index_message ∧
      ∀ e ∈ (handle_rm_request env1 ["some-operator"] "registry.example/binary"
          9 "registry.example/index" []).1,
        e.isComplete = false ∧ e.isManifestPush = false) := by
  have h := @claim_C4_stale_index env1 [] ["some-operator"]
    "registry.example/binary" 9 "registry.example/index"
    "registry.example/index" [] none none
  exact ⟨h.1 [Event.setState 9 "in_progress" "Resolving the images",
      Event.updateRequest 9 "in_progress"]
    ⟨{"amd64"}, "registry.example/binary@sha256:pre",
      some "registry.example/index@sha256:pre"⟩
    (by decide) (by decide) (by decide) (by decide),
    h.2 [Event.setState 9 "in_progress" "Resolving the images",
      Event.updateRequest 9 "in_progress"]
    ⟨{"amd64"}, "registry.example/binary@sha256:pre",
      some "registry.example/index@sha256:pre"⟩
    (by decide) (by decide)⟩

/-! ## Claim C6 -/

/-- C6: the generated manifest descriptor is a pure function of the
environment, request id and architecture set (hence identical across
repeated runs): it names the canonical output pull spec in its header and
lists exactly one entry per architecture, in ascending sorted order by
architecture name, each entry carrying the arch-suffixed canonical image
and platform `{architecture: <arch>, os: linux}`. -/
theorem claim_C6_manifest_deterministic_sorted (env : Env) (request_id : Nat)
    (arches : Finset String) :
    (manifest_list_entries env request_id arches).map
        (fun e => e.architecture) = sortArches arches ∧
    List.Sorted stringLE ((manifest_list_entries env request_id arches).map
      (fun e => e.architecture)) ∧
    ((manifest_list_entries env request_id arches).map
      (fun e => e.architecture)).Nodup ∧
    ((manifest_list_entries env request_id arches).map
      (fun e => e.architecture)).toFinset = arches ∧
    (∀ e ∈ manifest_list_entries env request_id arches,
      e.image = get_rebuilt_index_image env request_id ++ "-" ++
        e.architecture ∧ e.os = "linux") ∧
    manifest_list_content env request_id arches =
      "image: " ++ get_rebuilt_index_image env request_id ++ "\nmanifests:\n" ++
        String.join ((manifest_list_entries env request_id arches).map
          render_manifest_entry) := by
  have hmap : (manifest_list_entries env request_id arches).map
      (fun e => e.architecture) = sortArches arches := by
    unfold manifest_list_entries
    rw [List.map_map]
    exact List.map_id (sortArches arches)
  refine ⟨hmap, ?_, ?_, ?_, ?_, rfl⟩
  · rw [hmap]
    exact sortArches_sorted arches
  · rw [hmap]
    exact sortArches_nodup arches
  · rw [hmap]
    exact sortArches_toFinset arches
  · intro e he
    simp only [manifest_list_entries, List.mem_map] at he
    obtain ⟨a, ha, rfl⟩ := he
    exact ⟨rfl, rfl⟩

/-- Witness for C6 at a concrete entry of a concrete descriptor. -/
theorem claim_C6_manifest_witness :
    (⟨"registry.example/iib:req-amd64", "amd64", "linux"⟩ :
      ManifestEntry).image = get_rebuilt_index_image env0 1 ++ "-" ++
        (⟨"registry.example/iib:req-amd64", "amd64", "linux"⟩ :
          ManifestEntry).architecture ∧
    (⟨"registry.example/iib:req-amd64", "amd64", "linux"⟩ :
      ManifestEntry).os = "linux" :=
  (claim_C6_manifest_deterministic_sorted env0 1 {"amd64"}).2.2.2.2.1
    ⟨"registry.example/iib:req-amd64", "amd64", "linux"⟩ (by decide)

/-! ## Claim C8 -/

/-- C8: determining an image's architectures returns, for a v2
manifest-list media type, the set of the architectures of every listed
member manifest; for a single v2 manifest media type, the singleton of the
image's one inspected architecture; and for any other media type it fails
with the unsupported-manifest error. -/
theorem claim_C8_image_arches {env : Env} {pull_spec : String} :
    ((env.inspectRaw pull_spec).mediaType = manifestListMediaType →
      ∃ s, get_image_arches env pull_spec = .ok s ∧
        ∀ a, a ∈ s ↔ ∃ m ∈ (env.inspectRaw pull_spec).manifests,
          m.platform_architecture = a) ∧
    ((env.inspectRaw pull_spec).mediaType ≠ manifestListMediaType →
      (env.inspectRaw pull_spec).mediaType = v2ManifestMediaType →
      get_image_arches env pull_spec =
        .ok {env.inspectArchitecture pull_spec}) ∧
    ((env.inspectRaw pull_spec).mediaType ≠ manifestListMediaType →
      (env.inspectRaw pull_spec).mediaType ≠ v2ManifestMediaType →
      get_image_arches env pull_spec = .error ("The pull specification of " ++
        pull_spec ++ " is neither a v2 manifest list nor a v2 manifest")) := by
  refine ⟨?_, ?_, ?_⟩
  · intro hml
    refine ⟨((env.inspectRaw pull_spec).manifests.map
      (fun m => m.platform_architecture)).toFinset, ?_, ?_⟩
    · simp [get_image_arches, hml]
    · intro a
      simp [List.mem_toFinset, List.mem_map]
  · intro hne hv2
    simp only [get_image_arches]
    rw [if_neg hne, if_pos hv2]
  · intro h1 h2
    simp [get_image_arches, h1, h2]

/-- Witness for C8 under `env3`, exercising all three media-type cases. -/
theorem claim_C8_image_arches_witness :
    get_image_arches env3 "single" = .ok {"s390x"} ∧
    get_image_arches env3 "weird" = .error ("The pull specification of " ++
      "weird" ++ " is neither a v2 manifest list nor a v2 manifest") ∧
    ∃ s, get_image_arches env3 "registry.example/binary" = .ok s ∧
      ∀ a, a ∈ s ↔ ∃ m ∈ (env3.inspectRaw "registry.example/binary").manifests,
        m.platform_architecture = a := by
  refine ⟨?_, ?_, ?_⟩
  · exact (@claim_C8_image_arches env3 "single").2.1 (by decide) (by decide)
  · exact (@claim_C8_image_arches env3 "weird").2.2 (by decide) (by decide)
  · exact (@claim_C8_image_arches env3 "registry.example/binary").1 (by decide)

/-! ## Claim C7 -/

/-- C7: for every successful request (add and rm conjuncts), index content
generation is invoked exactly once regardless of the size of the
architecture set, every build and push event occurs strictly after the
generation event, and the per-arch build and push pair runs exactly once
per required architecture, iterating the architectures in ascending sorted
order by name. -/
theorem claim_C7_generate_once_sorted_builds {env : Env}
    {bundles operators : List String} {binary_image : String}
    {request_id : Nat} {from_index : Option String} {from_index_rm : String}
    {add_arches : List String} {cnr_token organization : Option String} :
    (∀ evs1 pre,
      verify_labels env bundles = .ok () →
      legacy_gate env (env.legacy_support_packages bundles) bundles cnr_token
        organization = .ok () →
      prepare_request_for_build env binary_image request_id from_index
        add_arches = (evs1, .ok pre) →
      (match from_index with
       | none => Except.ok ()
       | some f => verify_index_image env pre.from_index_resolved f) =
        .ok () →
      generate_once_then_sorted_builds
        (handle_add_request env bundles binary_image request_id from_index
          add_arches cnr_token organization).1
        (Event.opmIndexAdd bundles pre.binary_image_resolved from_index)
        pre.arches) ∧
    (∀ evs1 pre,
      prepare_request_for_build env binary_image request_id
        (some from_index_rm) add_arches = (evs1, .ok pre) →
      verify_index_image env pre.from_index_resolved from_index_rm = .ok () →
      generate_once_then_sorted_builds
        (handle_rm_request env operators binary_image request_id from_index_rm
          add_arches).1
        (Event.opmIndexRm operators binary_image from_index_rm)
        pre.arches) := by
  constructor
  · intro evs1 pre hv hl hp hver
    obtain ⟨hevs, _, _, _, _, _⟩ := prepare_ok_spec hp
    rw [handle_add_ok_shape hv hl hp hver]
    subst hevs
    cases hleg : (env.legacy_support_packages bundles).isEmpty
    · refine ⟨?_, ?_, ?_, sortArches_nodup _, sortArches_toFinset _,
        sortArches_sorted _, ?_⟩
      · simp [hleg, List.countP_append, List.countP_cons, Event.isGenerate,
          build_and_push_events, build_and_push_list_countP_generate]
      · simp [hleg, List.filterMap_append, List.filterMap_cons,
          Event.buildArch, build_and_push_events,
          build_and_push_list_filterMap_build]
      · simp [hleg, List.filterMap_append, List.filterMap_cons,
          Event.pushArch, build_and_push_events,
          build_and_push_list_filterMap_push]
      · refine ⟨[Event.cleanup,
          Event.setState request_id "in_progress" "Resolving the images",
          Event.updateRequest request_id "in_progress"],
          build_and_push_events request_id pre.arches ++
            [Event.setState request_id "in_progress"
               "Creating the manifest list",
             Event.pushManifestList request_id] ++
            [Event.legacyExport] ++
            [Event.updateRequest request_id "complete"], ?_, ?_, ?_⟩
        · simp [hleg, List.append_assoc]
        · intro e he
          simp at he
          rcases he with rfl | rfl | rfl <;> exact ⟨rfl, rfl, rfl⟩
        · intro e he
          simp at he
          rcases he with hbp | rfl | rfl | rfl | rfl
          · exact (build_and_push_list_flags hbp).1
          · rfl
          · rfl
          · rfl
          · rfl
    · refine ⟨?_, ?_, ?_, sortArches_nodup _, sortArches_toFinset _,
        sortArches_sorted _, ?_⟩
      · simp [hleg, List.countP_append, List.countP_cons, Event.isGenerate,
          build_and_push_events, build_and_push_list_countP_generate]
      · simp [hleg, List.filterMap_append, List.filterMap_cons,
          Event.buildArch, build_and_push_events,
          build_and_push_list_filterMap_build]
      · simp [hleg, List.filterMap_append, List.filterMap_cons,
          Event.pushArch, build_and_push_events,
          build_and_push_list_filterMap_push]
      · refine ⟨[Event.cleanup,
          Event.setState request_id "in_progress" "Resolving the images",
          Event.updateRequest request_id "in_progress"],
          build_and_push_events request_id pre.arches ++
            [Event.setState request_id "in_progress"
               "Creating the manifest list",
             Event.pushManifestList request_id] ++
            [Event.updateRequest request_id "complete"], ?_, ?_, ?_⟩
        · simp [hleg, List.append_assoc]
        · intro e he
          simp at he
          rcases he with rfl | rfl | rfl <;> exact ⟨rfl, rfl, rfl⟩
        · intro e he
          simp at he
          rcases he with hbp | rfl | rfl | rfl
          · exact (build_and_push_list_flags hbp).1
          · rfl
          · rfl
          · rfl
  · intro evs1 pre hp hver
    obtain ⟨hevs, _, _, _, _, _⟩ := prepare_ok_spec hp
    rw [handle_rm_ok_shape hp hver]
    subst hevs
    refine ⟨?_, ?_, ?_, sortArches_nodup _, sortArches_toFinset _,
      sortArches_sorted _, ?_⟩
    · simp [List.countP_append, List.countP_cons, Event.isGenerate,
        build_and_push_events, build_and_push_list_countP_generate]
    · simp [List.filterMap_append, List.filterMap_cons, Event.buildArch,
        build_and_push_events, build_and_push_list_filterMap_build]
    · simp [List.filterMap_append, List.filterMap_cons, Event.pushArch,
        build_and_push_events, build_and_push_list_filterMap_push]
    · refine ⟨[Event.cleanup,
        Event.setState request_id "in_progress" "Resolving the images",
        Event.updateRequest request_id "in_progress"],
        build_and_push_events request_id pre.arches ++
          [Event.setState request_id "in_progress"
             "Creating the manifest list",
           Event.pushManifestList request_id,
           Event.updateRequest request_id "complete"], ?_, ?_, ?_⟩
      · simp [List.append_assoc]
      · intro e he
        simp at he
        rcases he with rfl | rfl | rfl <;> exact ⟨rfl, rfl, rfl⟩
      · intro e he
        simp at he
        rcases he with hbp | rfl | rfl | rfl
        · exact (build_and_push_list_flags hbp).1
        · rfl
        · rfl
        · rfl

/-- Witness for C7: the successful rm request of `env0` satisfies the
property bundle. -/
theorem claim_C7_generate_once_witness :
    generate_once_then_sorted_builds
      (handle_rm_request env0 ["some-operator"] "registry.example/binary" 5
        "registry.example/index" []).1
      (Event.opmIndexRm ["some-operator"] "registry.example/binary"
        "registry.example/index")
      {"amd64"} :=
  (@claim_C7_generate_once_sorted_builds env0 [] ["some-operator"]
    "registry.example/binary" 5 none "registry.example/index" [] none none).2
    [Event.setState 5 "in_progress" "Resolving the images",
     Event.updateRequest 5 "in_progress"]
    ⟨{"amd64"}, "registry.example/binary@sha256:pre",
      some "registry.example/index@sha256:pre"⟩
    (by decide) (by decide)

/-! ## Claim C9 -/

/-- C9: the remove-mode generation of an rm request is invoked with the
caller-supplied unresolved binary-image reference (not the digest-resolved
form computed during preparation), whereas an add request passes the
resolved binary image to its generation step; in each conjunct the
generation event exists in the trace and every generation event of the
trace carries that binary-image reference. -/
theorem claim_C9_rm_uses_unresolved_binary_image {env : Env}
    {bundles operators : List String} {binary_image : String}
    {request_id : Nat} {from_index : Option String} {from_index_rm : String}
    {add_arches : List String} {cnr_token organization : Option String} :
    (∀ evs1 pre,
      prepare_request_for_build env binary_image request_id
        (some from_index_rm) add_arches = (evs1, .ok pre) →
      Event.opmIndexRm operators binary_image from_index_rm ∈
        (handle_rm_request env operators binary_image request_id from_index_rm
          add_arches).1 ∧
      ∀ ops2 b fi2, Event.opmIndexRm ops2 b fi2 ∈
          (handle_rm_request env operators binary_image request_id
            from_index_rm add_arches).1 →
        b = binary_image) ∧
    (∀ evs1 pre,
      verify_labels env bundles = .ok () →
      legacy_gate env (env.legacy_support_packages bundles) bundles cnr_token
        organization = .ok () →
      prepare_request_for_build env binary_image request_id from_index
        add_arches = (evs1, .ok pre) →
      Event.opmIndexAdd bundles (env.resolve1 binary_image) from_index ∈
        (handle_add_request env bundles binary_image request_id from_index
          add_arches cnr_token organization).1 ∧
      ∀ bs2 b fi2, Event.opmIndexAdd bs2 b fi2 ∈
          (handle_add_request env bundles binary_image request_id from_index
            add_arches cnr_token organization).1 →
        b = env.resolve1 binary_image) := by
  constructor
  · intro evs1 pre hp
    cases hver : verify_index_image env pre.from_index_resolved
        from_index_rm with
    | error e =>
      rw [handle_rm_stale_shape hp hver]
      constructor
      · simp
      · intro ops2 b fi2 hmem
        obtain ⟨hevs, _⟩ := prepare_ok_spec hp
        subst hevs
        simp at hmem
        rcases hmem with ⟨h1, h2, h3⟩ | hbp
        · exact h2
        · rcases mem_build_and_push_events hbp with ⟨c, _, he⟩ | ⟨c, _, he⟩ <;>
            simp at he
    | ok u =>
      cases u
      rw [handle_rm_ok_shape hp hver]
      constructor
      · simp
      · intro ops2 b fi2 hmem
        obtain ⟨hevs, _⟩ := prepare_ok_spec hp
        subst hevs
        simp at hmem
        rcases hmem with ⟨h1, h2, h3⟩ | hbp
        · exact h2
        · rcases mem_build_and_push_events hbp with ⟨c, _, he⟩ | ⟨c, _, he⟩ <;>
            simp at he
  · intro evs1 pre hv hl hp
    obtain ⟨hevs, hbir, _⟩ := prepare_ok_spec hp
    cases hver : (match from_index with
        | none => Except.ok ()
        | some f => verify_index_image env pre.from_index_resolved f) with
    | error e =>
      rw [handle_add_stale_shape hv hl hp hver, ← hbir]
      constructor
      · simp
      · intro bs2 b fi2 hmem
        subst hevs
        simp at hmem
        rcases hmem with ⟨h1, h2, h3⟩ | hbp
        · exact h2
        · rcases mem_build_and_push_events hbp with ⟨c, _, he⟩ | ⟨c, _, he⟩ <;>
            simp at he
    | ok u =>
      cases u
      rw [handle_add_ok_shape hv hl hp hver, ← hbir]
      constructor
      · simp
      · intro bs2 b fi2 hmem
        subst hevs
        cases hleg : (env.legacy_support_packages bundles).isEmpty
        · simp [hleg] at hmem
          rcases hmem with ⟨h1, h2, h3⟩ | hbp
          · exact h2
          · rcases mem_build_and_push_events hbp with ⟨c, _, he⟩ | ⟨c, _, he⟩ <;>
              simp at he
        · simp [hleg] at hmem
          rcases hmem with ⟨h1, h2, h3⟩ | hbp
          · exact h2
          · rcases mem_build_and_push_events hbp with ⟨c, _, he⟩ | ⟨c, _, he⟩ <;>
              simp at he

/-- Witness for C9: under `env0`, the rm request generates with the
unresolved `registry.example/binary` while the add request generates with
its resolved form. -/
theorem claim_C9_rm_uses_unresolved_witness :
    (Event.opmIndexRm ["some-operator"] "registry.example/binary"
        "registry.example/index" ∈
      (handle_rm_request env0 ["some-operator"] "registry.example/binary" 5
        "registry.example/index" []).1 ∧
      ∀ ops2 b fi2, Event.opmIndexRm ops2 b fi2 ∈
          (handle_rm_request env0 ["some-operator"] "registry.example/binary" 5
            "registry.example/index" []).1 →
        b = "registry.example/binary") ∧
    (Event.opmIndexAdd [] (env0.resolve1 "registry.example/binary")
        (some "registry.example/index") ∈
      (handle_add_request env0 [] "registry.example/binary" 5
        (some "registry.example/index") [] none none).1 ∧
      ∀ bs2 b fi2, Event.opmIndexAdd bs2 b fi2 ∈
          (handle_add_request env0 [] "registry.example/binary" 5
            (some "registry.example/index") [] none none).1 →
        b = env0.resolve1 "registry.example/binary") := by
  have h := @claim_C9_rm_uses_unresolved_binary_image env0 [] ["some-operator"]
    "registry.example/binary" 5 (some "registry.example/index")
    "registry.example/index" [] none none
  exact ⟨h.1 [Event.setState 5 "in_progress" "Resolving the images",
      Event.updateRequest 5 "in_progress"]
    ⟨{"amd64"}, "registry.example/binary@sha256:pre",
      some "registry.example/index@sha256:pre"⟩ (by decide),
    h.2 [Event.setState 5 "in_progress" "Resolving the images",
      Event.updateRequest 5 "in_progress"]
    ⟨{"amd64"}, "registry.example/binary@sha256:pre",
      some "registry.example/index@sha256:pre"⟩
    (by decide) (by decide) (by decide)⟩

end IIB
